import Mathlib

/-!
# Verification of dockerdash-tui's metric, history, chart and renderer logic

Shallow embedding of the JavaScript sources of `dockerdash-tui`:

* `src/src/dashboard.js` — `calculateStats`, `addToHistory`
* `src/src/stats.js`     — `displayStats` (CPU-percent part), history push
* `src/src/utils/format.js` — `formatBytes`
* `src/src/utils/config.js` — `loadConfig`
* `src/ui/charts.js`     — `progressBar`, `sparkline`, `coloredBytes`
* `src/ui/renderer.js`   — `Renderer.render`

JavaScript numbers coming out of `JSON.parse` are finite, so they are
modelled as `Rat`.  A missing object member read in an arithmetic position
coerces to `NaN`; this is modelled by `JsNum` (`nan` or a rational value).
Reading a member of a missing (`undefined`) object throws a `TypeError`;
functions that can hit such a read return `Except String _`.
-/

/-- A JavaScript number as it appears in the metric arithmetic:
either `NaN` (from `undefined` operands) or a finite value. -/
inductive JsNum where
  | nan : JsNum
  | val : Rat → JsNum
deriving DecidableEq, Repr

namespace JsNum

/-- JS subtraction: `NaN` propagates. -/
def sub : JsNum → JsNum → JsNum
  | nan, _ => nan
  | _, nan => nan
  | val a, val b => val (a - b)

/-- JS division.  `NaN` propagates.  A zero divisor gives `NaN` here;
in the embedded code every division is guarded by `systemDelta > 0`,
so the zero-divisor case (JS would give `±Infinity`) is unreachable. -/
def div : JsNum → JsNum → JsNum
  | nan, _ => nan
  | _, nan => nan
  | val a, val b => if b = 0 then nan else val (a / b)

/-- Multiplication by a finite constant: `NaN` propagates. -/
def mulR : JsNum → Rat → JsNum
  | nan, _ => nan
  | val a, c => val (a * c)

/-- JS `x > 0`: false on `NaN`. -/
def gt0 : JsNum → Bool
  | nan => false
  | val a => decide (0 < a)

/-- JS `Math.min(c, x)`: `NaN` absorbs. -/
def minC (c : Rat) : JsNum → JsNum
  | nan => nan
  | val a => val (min c a)

end JsNum

/-- Coerce an optional member into arithmetic: `undefined` becomes `NaN`. -/
def jnum : Option Rat → JsNum
  | none => JsNum.nan
  | some a => JsNum.val a

/-- JS `x || d` on an optional number: `undefined` and `0` are falsy. -/
def jsOrD (o : Option Rat) (d : Rat) : Rat :=
  match o with
  | none => d
  | some v => if v = 0 then d else v

/-! ## Docker stats frames (the parsed JSON objects) -/

structure CpuUsage where
  total_usage : Option Rat
deriving DecidableEq, Repr

structure CpuStats where
  cpu_usage : Option CpuUsage
  system_cpu_usage : Option Rat
  online_cpus : Option Rat
deriving DecidableEq, Repr

structure MemoryStats where
  usage : Option Rat
  limit : Option Rat
deriving DecidableEq, Repr

structure NetworkIface where
  rx_bytes : Option Rat
  tx_bytes : Option Rat
deriving DecidableEq, Repr

structure BlkioEntry where
  op : Option String
  value : Option Rat
deriving DecidableEq, Repr

structure BlkioStats where
  io_service_bytes_recursive : Option (List BlkioEntry)
deriving DecidableEq, Repr

structure PidsStats where
  current : Option Rat
deriving DecidableEq, Repr

/-- One parsed Docker stats frame.  Every nested object may be absent. -/
structure StatsFrame where
  cpu_stats : Option CpuStats
  memory_stats : Option MemoryStats
  networks : Option (List NetworkIface)
  blkio_stats : Option BlkioStats
  pids_stats : Option PidsStats
deriving DecidableEq, Repr

/-- The frame with every group absent. -/
def emptyFrame : StatsFrame :=
  { cpu_stats := none, memory_stats := none, networks := none
    blkio_stats := none, pids_stats := none }

/-! ## dashboard.js `calculateStats` -/

/-- The object returned by `calculateStats` (dashboard.js).  The two
counters are echoed from the frame and may be `undefined` there. -/
structure CalcStats where
  cpuPercent : JsNum
  memUsage : Rat
  memLimit : Rat
  memPercent : Rat
  netRx : Rat
  netTx : Rat
  blockRead : Rat
  blockWrite : Rat
  pids : Rat
  cpuTotal : Option Rat
  systemCpu : Option Rat
deriving DecidableEq, Repr

/-- Sum `rx_bytes`/`tx_bytes` over `Object.values(stats.networks)`. -/
def sumNetwork (l : List NetworkIface) : Rat × Rat :=
  l.foldl (fun acc i => (acc.1 + jsOrD i.rx_bytes 0, acc.2 + jsOrD i.tx_bytes 0)) (0, 0)

/-- Sum read/write bytes over `io_service_bytes_recursive`. -/
def sumBlkio (l : List BlkioEntry) : Rat × Rat :=
  l.foldl (fun acc e =>
    ((if e.op = some "read" ∨ e.op = some "Read" then acc.1 + jsOrD e.value 0 else acc.1),
     (if e.op = some "write" ∨ e.op = some "Write" then acc.2 + jsOrD e.value 0 else acc.2)))
    (0, 0)

/-- dashboard.js `calculateStats(stats, prev = {})`.  `prev = none` models
the `{}` default (every member read on it is `undefined`).  Reading
`stats.cpu_stats.cpu_usage.total_usage` or `stats.memory_stats.usage`
throws a `TypeError` when the intermediate object is absent; this is the
`Except.error` case. -/
def calculateStats (stats : StatsFrame) (prev : Option CalcStats) :
    Except String CalcStats :=
  match stats.cpu_stats with
  | none => .error "TypeError: cannot read cpu_usage of undefined"
  | some cs =>
    match cs.cpu_usage with
    | none => .error "TypeError: cannot read total_usage of undefined"
    | some cu =>
      let cpuDelta := (jnum cu.total_usage).sub (.val (jsOrD (prev.bind (·.cpuTotal)) 0))
      let systemDelta := (jnum cs.system_cpu_usage).sub (.val (jsOrD (prev.bind (·.systemCpu)) 0))
      let cpuCount := jsOrD cs.online_cpus 1
      let cpuPercent := if systemDelta.gt0
        then (cpuDelta.div systemDelta).mulR (cpuCount * 100)
        else .val 0
      match stats.memory_stats with
      | none => .error "TypeError: cannot read usage of undefined"
      | some ms =>
        let memUsage := jsOrD ms.usage 0
        let memLimit := jsOrD ms.limit 1
        let memPercent := memUsage / memLimit * 100
        let net := match stats.networks with
          | none => ((0 : Rat), (0 : Rat))
          | some l => sumNetwork l
        let blk := match stats.blkio_stats.bind (·.io_service_bytes_recursive) with
          | none => ((0 : Rat), (0 : Rat))
          | some l => sumBlkio l
        .ok
          { cpuPercent := cpuPercent.minC 100
            memUsage := memUsage
            memLimit := memLimit
            memPercent := memPercent
            netRx := net.1
            netTx := net.2
            blockRead := blk.1
            blockWrite := blk.2
            pids := jsOrD (stats.pids_stats.bind (·.current)) 0
            cpuTotal := cu.total_usage
            systemCpu := cs.system_cpu_usage }

/-! ## stats.js `displayStats` — CPU-percent computation

`displayStats` keeps the raw counters of the previous frame
(`previousCpu`, `previousSystem`, both `null` before the first frame)
and computes

`cpuPercent = systemDelta > 0 ? Math.min(100, (cpuDelta / systemDelta) * cpuCount * 100) : 0`.
-/
def displayStatsCpuPercent (stats : StatsFrame)
    (previousCpu previousSystem : Option Rat) : Except String JsNum :=
  match stats.cpu_stats with
  | none => .error "TypeError: cannot read cpu_usage of undefined"
  | some cs =>
    match cs.cpu_usage with
    | none => .error "TypeError: cannot read total_usage of undefined"
    | some cu =>
      let cpuDelta := (jnum cu.total_usage).sub (.val (jsOrD previousCpu 0))
      let systemDelta := (jnum cs.system_cpu_usage).sub (.val (jsOrD previousSystem 0))
      let cpuCount := jsOrD cs.online_cpus 1
      .ok (if systemDelta.gt0
        then ((cpuDelta.div systemDelta).mulR (cpuCount * 100)).minC 100
        else .val 0)

/-! ## Rolling history (dashboard.js `addToHistory`, stats.js history push)

Both files do `series.push(x); if (series.length > HISTORY_SIZE) series.shift();`
with `HISTORY_SIZE = 20` (dashboard) and `HISTORY_SIZE = 30` (stats view).
-/

/-- Append at the tail, then drop the head once the length exceeds `N`. -/
def pushHistory (N : Nat) (h : List α) (x : α) : List α :=
  let pushed := h ++ [x]
  if N < pushed.length then pushed.tail else pushed

/-- One entity's pair of series in the dashboard's `statsHistory` map. -/
structure History where
  cpu : List JsNum
  mem : List Rat
deriving DecidableEq, Repr

namespace Dashboard

def HISTORY_SIZE : Nat := 20

/-- dashboard.js `addToHistory`: the map entry is created empty when the key
is new (`none`), then both series get one sample pushed and truncated. -/
def addToHistory (entry : Option History) (stats : CalcStats) : History :=
  let history := entry.getD { cpu := [], mem := [] }
  { cpu := pushHistory HISTORY_SIZE history.cpu stats.cpuPercent
    mem := pushHistory HISTORY_SIZE history.mem stats.memPercent }

end Dashboard

namespace StatsView

def HISTORY_SIZE : Nat := 30

end StatsView

/-! ## ui/renderer.js — the flicker-free differential renderer

`render` writes a sequence of terminal operations to stdout; the emitted
escape codes are modelled as `TermOp`s, and the terminal itself as a list
of rows plus a cursor row.  Column bookkeeping is not modelled: every
`write` in the emitted streams happens immediately after a `clearLine`
with the cursor at column 0, so appending to the (cleared) row is exact.
-/

/-- One atomic escape-sequence/text write of the renderer. -/
inductive TermOp where
  /-- `\x1b[nA` — cursor up `n` rows. -/
  | moveUp (n : Nat)
  /-- `\x1b[2K` — erase the entire current line. -/
  | clearLine
  /-- literal text written at the cursor. -/
  | write (s : String)
  /-- `\n` — move to the start of the next row. -/
  | newline
deriving DecidableEq, Repr

/-- JS `content.split('\n')`: split the character sequence at every
newline, keeping empty segments (`''.split('\n')` is `['']`). -/
def splitLines (content : String) : List String :=
  (content.data.splitOn '\n').map (fun cs => { data := cs })

/-- `{lastLineCount, isFirstRender}` of the `Renderer` class. -/
structure RendererState where
  lastLineCount : Nat
  isFirstRender : Bool
deriving DecidableEq, Repr

namespace Renderer

/-- The constructor's state, also what `reset()` restores. -/
def initial : RendererState := { lastLineCount := 0, isFirstRender := true }

/-- The per-line loop: clear the row, write the line, newline after every
line but the last. -/
def linesOps : List String → List TermOp
  | [] => []
  | [l] => [.clearLine, .write l]
  | l :: rest => .clearLine :: .write l :: .newline :: linesOps rest

/-- The surplus-row loop: `extraLines` times `'\n' + '\x1b[2K'`. -/
def surplusOps (extraLines : Nat) : List TermOp :=
  (List.replicate extraLines [TermOp.newline, TermOp.clearLine]).flatten

/-- `Renderer.render(content)`: returns the successor state and the exact
sequence of writes the method performs. -/
def render (st : RendererState) (content : String) : RendererState × List TermOp :=
  let lines := splitLines content
  let lineCount := lines.length
  let head := if st.isFirstRender = false ∧ 0 < st.lastLineCount
    then [TermOp.moveUp st.lastLineCount] else []
  let surplus := if lineCount < st.lastLineCount
    then surplusOps (st.lastLineCount - lineCount) ++
         [TermOp.moveUp (st.lastLineCount - lineCount)]
    else []
  ({ lastLineCount := lineCount, isFirstRender := false },
   head ++ linesOps lines ++ surplus ++ [TermOp.newline])

end Renderer

/-- The terminal region the renderer paints: rows of glyphs plus the
cursor's row.  Rows spring into existence blank when first touched. -/
structure Terminal where
  rows : List String
  cur : Nat
deriving DecidableEq, Repr

/-- Pad the row list with blank rows up to length `n`. -/
def padRows (rows : List String) (n : Nat) : List String :=
  rows ++ List.replicate (n - rows.length) ""

def Terminal.empty : Terminal := { rows := [], cur := 0 }

/-- Apply one write to the terminal.  `moveUp` clamps at the top row, as a
real terminal does; `clearLine` blanks the cursor row; `write` puts text on
the cursor row (appending — exact here, see the note above). -/
def Terminal.applyOp (t : Terminal) : TermOp → Terminal
  | .moveUp n => { t with cur := t.cur - n }
  | .clearLine => { t with rows := (padRows t.rows (t.cur + 1)).set t.cur "" }
  | .write s =>
      let r := padRows t.rows (t.cur + 1)
      { t with rows := r.set t.cur (r.getD t.cur "" ++ s) }
  | .newline => { t with cur := t.cur + 1 }

def Terminal.applyOps (t : Terminal) (ops : List TermOp) : Terminal :=
  ops.foldl Terminal.applyOp t

/-! ## ui/charts.js — progress bars, sparklines, byte colouring

Chalk colour wrappers contribute only zero-glyph escape codes, so they are
modelled as the identity; glyph counts are unaffected.
-/

/-- JS `Math.round`: round half towards `+∞`.  (`Number.prototype.toFixed`
breaks ties the same way.) -/
def jsRound (x : Rat) : Int := ⌊x + 1 / 2⌋

/-- Drop trailing decimal zeros of the scaled integer `m` carrying `f`
decimal digits — what `parseFloat` does to the output of `toFixed`. -/
def stripZeros : Int → Nat → Int × Nat
  | m, 0 => (m, 0)
  | m, f + 1 => if m % 10 = 0 then stripZeros (m / 10) f else (m, f + 1)

/-- Decimal rendering of `m / 10^f` with exactly `f` fractional digits
(`f = 0`: no decimal point) — JS `Number.prototype.toFixed` output for a
value that is exactly representable. -/
def fixedDigitsStr (m : Int) (f : Nat) : String :=
  if f = 0 then toString m
  else
    let ip := m.natAbs / 10 ^ f
    let fp := m.natAbs % 10 ^ f
    let fs := toString fp
    let fs := String.join (List.replicate (f - fs.length) "0") ++ fs
    (if m < 0 then "-" else "") ++ toString ip ++ "." ++ fs

/-- JS `x.toFixed(f)`. -/
def toFixedStr (x : Rat) (f : Nat) : String :=
  fixedDigitsStr (jsRound (x * (10 : Rat) ^ f)) f

/-- JS `parseFloat(x.toFixed(f)) + ''`: fixed-point rounding with the
trailing zeros (and a bare decimal point) dropped again. -/
def toFixedParseFloatStr (x : Rat) (f : Nat) : String :=
  let s := stripZeros (jsRound (x * (10 : Rat) ^ f)) f
  fixedDigitsStr s.1 s.2

/-- JS `'c'.repeat(n)` with a JS-number count: negative counts throw
`RangeError`. -/
def jsRepeat (s : String) (n : Int) : Except String String :=
  if n < 0 then .error "RangeError: Invalid count value"
  else .ok (String.join (List.replicate n.toNat s))

/-- JS `String.prototype.padStart` with spaces. -/
def padStart (s : String) (n : Nat) : String :=
  String.join (List.replicate (n - s.length) " ") ++ s

/-- charts.js `progressBar`: `safePercent = Math.min(100, Math.max(0, percent))`. -/
def safePercent (percent : Rat) : Rat := min 100 (max 0 percent)

/-- `filled = Math.round((safePercent / 100) * width)`. -/
def pbFilled (percent : Rat) (width : Nat) : Int :=
  jsRound (safePercent percent / 100 * width)

/-- `empty = width - filled`. -/
def pbEmpty (percent : Rat) (width : Nat) : Int :=
  (width : Int) - pbFilled percent width

/-- charts.js `progressBar(percent, width, {showPercent})`.  The `colorize`
option only selects a chalk colour (identity here) and is omitted.  The
`Except` layer carries the `RangeError` a negative repeat count would
throw. -/
def progressBar (percent : Rat) (width : Nat) (showPercent : Bool) :
    Except String String := do
  let bar := (← jsRepeat "█" (pbFilled percent width)) ++
             (← jsRepeat "░" (pbEmpty percent width))
  pure (if showPercent
    then bar ++ " " ++ padStart (toFixedStr (safePercent percent) 1) 5 ++ "%"
    else bar)

/-- The eight density glyphs of `sparkline`. -/
def sparklineChars : List String := ["▁", "▂", "▃", "▄", "▅", "▆", "▇", "█"]

/-- JS `data.slice(-width)`: the last `width` elements — except that
`slice(-0)` is `slice(0)`, the whole array. -/
def jsSliceNeg (l : List α) (width : Nat) : List α :=
  if width = 0 then l else l.drop (l.length - width)

/-- The `points` array of `sparkline`: the slice, left-padded with
`dataMin` by the `while (points.length < width) points.unshift(dataMin)`
loop. -/
def sparklinePoints (data : List Rat) (width : Nat) (dataMin : Rat) : List Rat :=
  let points := jsSliceNeg data width
  List.replicate (width - points.length) dataMin ++ points

/-- One glyph: `chars[Math.min(chars.length - 1, Math.floor(normalized * chars.length))]`.
An index outside the array would read `undefined` (unreachable with the
default min/max options). -/
def sparklineGlyph (dataMin range v : Rat) : String :=
  let normalized := (v - dataMin) / range
  let index := min 7 ⌊normalized * 8⌋
  if index < 0 then "undefined" else sparklineChars.getD index.toNat "undefined"

/-- `Math.min(...data)` over a nonempty array. -/
def listMin (x : Rat) (xs : List Rat) : Rat := xs.foldl min x

/-- `Math.max(...data)` over a nonempty array. -/
def listMax (x : Rat) (xs : List Rat) : Rat := xs.foldl max x

/-- charts.js `sparkline(data, {width, min, max})`.  `data = none` models a
null/undefined argument (`!data` is truthy); the other options keep their
source defaults when `none`. -/
def sparkline (data : Option (List Rat)) (width : Nat)
    (minOpt maxOpt : Option Rat) : String :=
  match data with
  | none => String.join (List.replicate width "─")
  | some [] => String.join (List.replicate width "─")
  | some (x :: xs) =>
    let dataMin := minOpt.getD (listMin x xs)
    let dataMax := maxOpt.getD (listMax x xs)
    let range := if dataMax - dataMin = 0 then 1 else dataMax - dataMin
    String.join ((sparklinePoints (x :: xs) width dataMin).map
      (sparklineGlyph dataMin range))

/-- The units list of both `formatBytes` and `coloredBytes`. -/
def sizes : List String := ["B", "KB", "MB", "GB", "TB"]

/-- JS `sizes[i]`: out-of-range reads give `undefined`, which string
concatenation renders as `"undefined"`. -/
def jsIndexStr (l : List String) (i : Nat) : String :=
  match l.get? i with
  | some s => s
  | none => "undefined"

/-- The `while (value >= 1024 && unitIndex < units.length - 1)` loop of
`coloredBytes`; the guard `unitIndex < 4` caps the iteration count, so
fuel 4 runs it to completion from `unitIndex = 0`. -/
def cbLoop : Rat → Nat → Nat → Rat × Nat
  | v, idx, 0 => (v, idx)
  | v, idx, fuel + 1 =>
    if 1024 ≤ v ∧ idx < 4 then cbLoop (v / 1024) (idx + 1) fuel else (v, idx)

/-- charts.js `coloredBytes` (chalk colour dropped): scale by repeated
division, render with one fixed decimal. -/
def coloredBytes (bytes : Rat) : String :=
  let vi := cbLoop bytes 0 4
  toFixedStr vi.1 1 ++ " " ++ jsIndexStr sizes vi.2

/-! ## utils/format.js `formatBytes` -/

/-- Relative-error allowance for the double-precision log quotient of
`formatBytes`.  A faithfully-rounded `Math.log` carries a relative error
of a few `2^-53`, so the quotient
`Math.log(bytes) / Math.log(1024)` is within a few `2^-52` of the exact
base-1024 logarithm; `2^-40` over-bounds that by three orders of
magnitude, so every plausible libm is admitted. -/
def logUlpErr : Rat := 1 / 2 ^ 40

/-- What `i = Math.floor(Math.log(bytes) / Math.log(1024))` can be for a
positive byte count, computed in IEEE-754 doubles.  ECMAScript leaves
`Math.log` implementation-approximated, so the index near a `1024^k`
boundary is not determined by the integer `bytes` alone; any
faithfully-rounded evaluation satisfies the two bracketing inequalities
(the floor of a quotient within `logUlpErr` relative error of the exact
logarithm).  At `bytes = 1024` the numerator and denominator are the very
same double, so the quotient is exactly 1 in every implementation. -/
def jsLogIdx (bytes : Nat) (i : Nat) : Prop :=
  (1024 : Rat) ^ i * (1 - logUlpErr) ≤ (bytes : Rat) ∧
  (bytes : Rat) < (1024 : Rat) ^ (i + 1) * (1 + logUlpErr) ∧
  (bytes = 1024 → i = 1)

/-- format.js `formatBytes(bytes, decimals = 2)` for a nonnegative byte
count.  The source computes the unit index as
`i = Math.floor(Math.log(bytes) / Math.log(1024))` in doubles; since that
value is implementation-approximated, it is passed here as the explicit
argument `i`, constrained by `jsLogIdx` in the theorems (the `bytes === 0`
early return keeps `Math.log(0)` out of reach, and the division by
`Math.pow(1024, i)`, a power of two, is exact in doubles).  There is no
cap at the last unit: `sizes[i]` can be an out-of-range read. -/
def formatBytes (bytes : Nat) (decimals : Int) (i : Nat) : String :=
  if bytes = 0 then "0 B"
  else
    let dm := if decimals < 0 then 0 else decimals.toNat
    toFixedParseFloatStr ((bytes : Rat) / (1024 : Rat) ^ i) dm ++ " " ++
      jsIndexStr sizes i

/-! ## utils/config.js `loadConfig` -/

/-- The configuration object the rest of the program consumes. -/
structure Config where
  refreshInterval : Rat
  logTail : Rat
  showAllContainers : Bool
  theme : String
deriving DecidableEq, Repr

/-- config.js `DEFAULT_CONFIG`. -/
def DEFAULT_CONFIG : Config :=
  { refreshInterval := 2000, logTail := 100, showAllContainers := true
    theme := "default" }

/-- The four recognized keys as they may (each independently) appear in the
stored JSON object; unrecognized keys play no part in the claim. -/
structure StoredConfig where
  refreshInterval : Option Rat
  logTail : Option Rat
  showAllContainers : Option Bool
  theme : Option String
deriving DecidableEq, Repr

/-- What the filesystem interaction of `loadConfig` can yield: no file,
`readFileSync` throwing, `JSON.parse` throwing, or a parsed object. -/
inductive ConfigFile where
  | missing
  | unreadable
  | invalidJson
  | parsed (c : StoredConfig)
deriving DecidableEq, Repr

/-- config.js `loadConfig`: the `try`/`catch` turns every failure into the
defaults; a parsed object is spread over `DEFAULT_CONFIG`, so each
recognized key keeps its stored value and absent keys keep the default. -/
def loadConfig : ConfigFile → Config
  | .parsed c =>
    { refreshInterval := c.refreshInterval.getD DEFAULT_CONFIG.refreshInterval
      logTail := c.logTail.getD DEFAULT_CONFIG.logTail
      showAllContainers := c.showAllContainers.getD DEFAULT_CONFIG.showAllContainers
      theme := c.theme.getD DEFAULT_CONFIG.theme }
  | _ => DEFAULT_CONFIG

/-! ## Session teardown (stats.js and dashboard.js `cleanup`)

Each `cleanup` closure is a state transition on the session's resources.
Counters record how many times each side effect was *invoked*; flags model
the idempotent resources themselves (a Node stream's `destroy()` on an
already-destroyed stream is a no-op, and resolving an already-settled
promise is a no-op).
-/

/-- A Node stream handle: `destroy()` is idempotent on it. -/
structure StreamHandle where
  destroyed : Bool
deriving DecidableEq, Repr

namespace StatsView

/-- The single-container session's resources and effect counters. -/
structure Session where
  /-- `streamRef` (`null` until the stats stream resolves). -/
  streamRef : Option StreamHandle
  /-- invocations of `streamRef.destroy?.()` -/
  destroyCalls : Nat
  /-- writes of the show-cursor escape (`showCursor()`) -/
  showCursorCalls : Nat
  /-- invocations of `renderer.reset()` -/
  rendererResetCalls : Nat
  /-- invocations of `setRawMode(false)` -/
  rawModeOffCalls : Nat
  /-- keypress listener removed -/
  listenerRemoved : Bool
  /-- invocations of `resolve()` -/
  resolveCalls : Nat
  /-- the completion promise is settled -/
  settled : Bool
  /-- effective settlements: a `resolve()` on an already-settled promise
  is a no-op, so this only moves on the first call -/
  settleEvents : Nat
deriving DecidableEq, Repr

/-- stats.js `cleanup`: destroy the stream if present, restore the cursor,
reset the renderer, restore the input mode, remove the listener, resolve.
The body has no reentry guard. -/
def cleanup (s : Session) : Session :=
  let s := match s.streamRef with
    | none => s
    | some h => { s with streamRef := some { h with destroyed := true }
                         destroyCalls := s.destroyCalls + 1 }
  { s with showCursorCalls := s.showCursorCalls + 1
           rendererResetCalls := s.rendererResetCalls + 1
           rawModeOffCalls := s.rawModeOffCalls + 1
           listenerRemoved := true
           resolveCalls := s.resolveCalls + 1
           settled := true
           settleEvents := if s.settled then s.settleEvents else s.settleEvents + 1 }

end StatsView

namespace Dashboard

/-- The multi-container session's resources and effect counters. -/
structure Session where
  isRunning : Bool
  /-- `streams.values()` — the live stream map entries. -/
  streams : List StreamHandle
  /-- total invocations of `stream.destroy?.()` -/
  destroyCalls : Nat
  showCursorCalls : Nat
  rendererResetCalls : Nat
  rawModeOffCalls : Nat
  listenerRemoved : Bool
deriving DecidableEq, Repr

/-- dashboard.js `cleanup`: flip the flag, restore the cursor, reset the
renderer, destroy every stream in the map, clear the map, restore the
input mode, remove the listener.  No reentry guard either — but the map is
cleared, so the per-stream destroys are not repeated. -/
def cleanup (s : Session) : Session :=
  { isRunning := false
    streams := []
    destroyCalls := s.destroyCalls + s.streams.length
    showCursorCalls := s.showCursorCalls + 1
    rendererResetCalls := s.rendererResetCalls + 1
    rawModeOffCalls := s.rawModeOffCalls + 1
    listenerRemoved := true }

end Dashboard
/-- A well-formed frame: both CPU counters and the memory object present. -/
def wfFrame (t sys cpus usage limit : Option Rat) : StatsFrame :=
  { cpu_stats := some { cpu_usage := some { total_usage := t },
                        system_cpu_usage := sys, online_cpus := cpus }
    memory_stats := some { usage := usage, limit := limit }
    networks := none, blkio_stats := none, pids_stats := none }

/-- C1 (amended): for every frame whose CPU counter fields are present and
every previous-metrics object, the derived `cpuPercent` is a finite value
(never `NaN`) that never exceeds 100, equals 0 whenever the system-counter
delta is zero or negative, and is nonnegative whenever the CPU-counter
delta and the CPU count are nonnegative — in both the dashboard's
`calculateStats` and the single-container view's `displayStats`.  The
original claim's lower bound 0 does not hold unconditionally: a CPU
counter that wraps or resets while the system counter advances yields a
negative `cpuPercent` (see the counterexample). -/
theorem calculateStats_cpuPercent_bounds
    (f : StatsFrame) (prev : Option CalcStats)
    (cs : CpuStats) (cu : CpuUsage) (ms : MemoryStats) (t sys : Rat)
    (hcs : f.cpu_stats = some cs) (hcu : cs.cpu_usage = some cu)
    (hms : f.memory_stats = some ms)
    (ht : cu.total_usage = some t) (hsys : cs.system_cpu_usage = some sys) :
    (∃ q : Rat,
      (calculateStats f prev).map (·.cpuPercent) = .ok (.val q) ∧
      q ≤ 100 ∧
      (sys - jsOrD (prev.bind (·.systemCpu)) 0 ≤ 0 → q = 0) ∧
      (0 ≤ t - jsOrD (prev.bind (·.cpuTotal)) 0 →
        0 ≤ jsOrD cs.online_cpus 1 → 0 ≤ q)) ∧
    ∀ pC pS : Option Rat,
      ∃ q : Rat,
        displayStatsCpuPercent f pC pS = .ok (.val q) ∧
        q ≤ 100 ∧
        (sys - jsOrD pS 0 ≤ 0 → q = 0) ∧
        (0 ≤ t - jsOrD pC 0 → 0 ≤ jsOrD cs.online_cpus 1 → 0 ≤ q) := by
  constructor
  · by_cases hpos : 0 < sys - jsOrD (prev.bind (·.systemCpu)) 0
    · refine ⟨min 100 ((t - jsOrD (prev.bind (·.cpuTotal)) 0) /
        (sys - jsOrD (prev.bind (·.systemCpu)) 0) * (jsOrD cs.online_cpus 1 * 100)),
        ?_, min_le_left _ _, fun hle => absurd hpos (not_lt.mpr hle), ?_⟩
      · simp [calculateStats, hcs, hcu, hms, ht, hsys, jnum, JsNum.sub, JsNum.gt0,
          JsNum.div, JsNum.mulR, JsNum.minC, hpos, ne_of_gt hpos, Except.map]
      · intro hdc hcc
        exact le_min (by norm_num)
          (mul_nonneg (div_nonneg hdc (le_of_lt hpos)) (by positivity))
    · refine ⟨0, ?_, by norm_num, fun _ => rfl, fun _ _ => le_refl 0⟩
      simp [calculateStats, hcs, hcu, hms, ht, hsys, jnum, JsNum.sub, JsNum.gt0,
        JsNum.div, JsNum.mulR, JsNum.minC, hpos, Except.map]
  · intro pC pS
    by_cases hpos : 0 < sys - jsOrD pS 0
    · refine ⟨min 100 ((t - jsOrD pC 0) / (sys - jsOrD pS 0) *
        (jsOrD cs.online_cpus 1 * 100)),
        ?_, min_le_left _ _, fun hle => absurd hpos (not_lt.mpr hle), ?_⟩
      · simp [displayStatsCpuPercent, hcs, hcu, ht, hsys, jnum, JsNum.sub, JsNum.gt0,
          JsNum.div, JsNum.mulR, JsNum.minC, hpos, ne_of_gt hpos]
      · intro hdc hcc
        exact le_min (by norm_num)
          (mul_nonneg (div_nonneg hdc (le_of_lt hpos)) (by positivity))
    · refine ⟨0, ?_, by norm_num, fun _ => rfl, fun _ _ => le_refl 0⟩
      simp [displayStatsCpuPercent, hcs, hcu, ht, hsys, jnum, JsNum.sub, JsNum.gt0,
        JsNum.div, JsNum.mulR, JsNum.minC, hpos]

/-- Frame 1 of the C1 counterexample run. -/
def negFrame1 : StatsFrame := wfFrame (some 1000) (some 1000) (some 1) (some 0) (some 1)

/-- Frame 2: the cumulative CPU counter reset to 0 while the system
counter advanced by 1000. -/
def negFrame2 : StatsFrame := wfFrame (some 0) (some 2000) (some 1) (some 0) (some 1)

/-- C1 counterexample: two frames in sequence — the cumulative CPU counter
drops from 1000 to 0 while the system counter advances from 1000 to 2000 —
make `calculateStats` produce `cpuPercent = -100`, outside `[0, 100]`. -/
theorem calculateStats_cpuPercent_negative_on_counter_reset :
    ((calculateStats negFrame1 none).bind
      (fun m1 => calculateStats negFrame2 (some m1))).map (·.cpuPercent) =
      .ok (.val (-100)) ∧ ((-100 : Rat) < 0) := by
  constructor
  · simp [calculateStats, negFrame1, negFrame2, wfFrame, jnum, jsOrD, JsNum.sub,
      JsNum.gt0, JsNum.div, JsNum.mulR, JsNum.minC, Except.bind, Except.map]
    norm_num
  · norm_num

def wCu : CpuUsage := { total_usage := some 50 }

def wCs : CpuStats :=
  { cpu_usage := some wCu, system_cpu_usage := some 100, online_cpus := some 1 }

def wMs : MemoryStats := { usage := some 0, limit := some 1 }

def wFrame : StatsFrame :=
  { cpu_stats := some wCs, memory_stats := some wMs
    networks := none, blkio_stats := none, pids_stats := none }

/-- Witness for C1 at a concrete first frame (total 50, system 100). -/
theorem calculateStats_cpuPercent_bounds_witness :
    (∃ q : Rat,
      (calculateStats wFrame none).map (·.cpuPercent) = .ok (.val q) ∧
      q ≤ 100 ∧
      ((100 : Rat) - jsOrD ((none : Option CalcStats).bind (·.systemCpu)) 0 ≤ 0 → q = 0) ∧
      (0 ≤ (50 : Rat) - jsOrD ((none : Option CalcStats).bind (·.cpuTotal)) 0 →
        0 ≤ jsOrD wCs.online_cpus 1 → 0 ≤ q)) ∧
    ∀ pC pS : Option Rat,
      ∃ q : Rat,
        displayStatsCpuPercent wFrame pC pS = .ok (.val q) ∧
        q ≤ 100 ∧
        ((100 : Rat) - jsOrD pS 0 ≤ 0 → q = 0) ∧
        (0 ≤ (50 : Rat) - jsOrD pC 0 → 0 ≤ jsOrD wCs.online_cpus 1 → 0 ≤ q) :=
  calculateStats_cpuPercent_bounds wFrame none wCs wCu wMs 50 100 rfl rfl rfl rfl rfl

/-- C2 (amended): on the first frame the missing previous counters default
to 0, so both views compute
`cpuPercent = min(100, total_usage / system_cpu_usage * cpus * 100)` when
`system_cpu_usage > 0` (and 0 otherwise) — the whole-counter ratio, not 0:
the claim's `cpuPercent == 0` for every first frame is false (see the
counterexample). -/
theorem calculateStats_firstFrame_formula
    (f : StatsFrame)
    (cs : CpuStats) (cu : CpuUsage) (ms : MemoryStats) (t sys : Rat)
    (hcs : f.cpu_stats = some cs) (hcu : cs.cpu_usage = some cu)
    (hms : f.memory_stats = some ms)
    (ht : cu.total_usage = some t) (hsys : cs.system_cpu_usage = some sys) :
    (calculateStats f none).map (·.cpuPercent) =
      .ok (if 0 < sys
        then .val (min 100 (t / sys * (jsOrD cs.online_cpus 1 * 100)))
        else .val 0) ∧
    displayStatsCpuPercent f none none =
      .ok (if 0 < sys
        then .val (min 100 (t / sys * (jsOrD cs.online_cpus 1 * 100)))
        else .val 0) := by
  by_cases hpos : 0 < sys
  · constructor
    · simp [calculateStats, hcs, hcu, hms, ht, hsys, jnum, jsOrD, JsNum.sub, JsNum.gt0,
        JsNum.div, JsNum.mulR, JsNum.minC, hpos, ne_of_gt hpos, Except.map]
    · simp [displayStatsCpuPercent, hcs, hcu, ht, hsys, jnum, jsOrD, JsNum.sub,
        JsNum.gt0, JsNum.div, JsNum.mulR, JsNum.minC, hpos, ne_of_gt hpos]
  · constructor
    · simp [calculateStats, hcs, hcu, hms, ht, hsys, jnum, jsOrD, JsNum.sub, JsNum.gt0,
        JsNum.div, JsNum.mulR, JsNum.minC, hpos, Except.map]
    · simp [displayStatsCpuPercent, hcs, hcu, ht, hsys, jnum, jsOrD, JsNum.sub,
        JsNum.gt0, JsNum.div, JsNum.mulR, JsNum.minC, hpos]

/-- C2 counterexample: a single frame with `total_usage = 50`,
`system_cpu_usage = 100` and no prior metrics yields `cpuPercent = 50`,
not 0, in both views. -/
theorem calculateStats_firstFrame_nonzero :
    (calculateStats wFrame none).map (·.cpuPercent) = .ok (.val 50) ∧
    displayStatsCpuPercent wFrame none none = .ok (.val 50) ∧
    JsNum.val 50 ≠ JsNum.val 0 := by
  refine ⟨?_, ?_, by simp⟩
  · simp [calculateStats, wFrame, wCs, wCu, wMs, jnum, jsOrD, JsNum.sub, JsNum.gt0,
      JsNum.div, JsNum.mulR, JsNum.minC, Except.map]
    norm_num
  · simp [displayStatsCpuPercent, wFrame, wCs, wCu, jnum, jsOrD, JsNum.sub, JsNum.gt0,
      JsNum.div, JsNum.mulR, JsNum.minC]
    norm_num

/-- Witness for C2 at the concrete frame `wFrame`. -/
theorem calculateStats_firstFrame_formula_witness :
    ((calculateStats wFrame none).map (·.cpuPercent) =
      .ok (if 0 < (100 : Rat)
        then .val (min 100 (50 / 100 * (jsOrD wCs.online_cpus 1 * 100)))
        else .val 0)) ∧
    displayStatsCpuPercent wFrame none none =
      .ok (if 0 < (100 : Rat)
        then .val (min 100 (50 / 100 * (jsOrD wCs.online_cpus 1 * 100)))
        else .val 0) :=
  calculateStats_firstFrame_formula wFrame wCs wCu wMs 50 100 rfl rfl rfl rfl rfl

/-- C3 (amended): the metric calculation is pure, and it is total for
every frame that carries the `cpu_stats` (with `cpu_usage`) and
`memory_stats` objects: absent `networks`, `blkio_stats`, `pids_stats` and
absent numeric members default to 0 (1 for the memory limit) without
error.  But it is not total on all frames: a frame missing `cpu_stats`,
`cpu_usage`, or `memory_stats` throws a `TypeError` (see the
counterexample), so absence of those objects is surfaced as a failure,
contrary to the claim. -/
theorem calculateStats_total_with_defaults
    (f : StatsFrame) (prev : Option CalcStats)
    (cs : CpuStats) (cu : CpuUsage) (ms : MemoryStats)
    (hcs : f.cpu_stats = some cs) (hcu : cs.cpu_usage = some cu)
    (hms : f.memory_stats = some ms) :
    ∃ r : CalcStats, calculateStats f prev = .ok r ∧
      (f.networks = none → r.netRx = 0 ∧ r.netTx = 0) ∧
      (f.blkio_stats = none → r.blockRead = 0 ∧ r.blockWrite = 0) ∧
      (f.pids_stats = none → r.pids = 0) ∧
      (ms.usage = none → r.memUsage = 0) ∧
      (ms.limit = none → r.memLimit = 1) := by
  obtain ⟨fcs, fms, fnet, fblk, fpid⟩ := f
  obtain ⟨mu, ml⟩ := ms
  obtain ⟨ccu, csys, conl⟩ := cs
  dsimp only at hcs hms hcu
  subst hcs; subst hms; subst hcu
  cases fnet <;> cases fblk <;> cases fpid <;> cases mu <;> cases ml <;>
    exact ⟨_, rfl, by simp, by simp, by simp [calculateStats, jsOrD],
      by simp [calculateStats, jsOrD], by simp [calculateStats, jsOrD]⟩

/-- C3 counterexample: a frame without `cpu_stats` (or without
`memory_stats`) makes `calculateStats` throw instead of defaulting. -/
theorem calculateStats_throws_on_missing_groups :
    calculateStats emptyFrame none =
      .error "TypeError: cannot read cpu_usage of undefined" ∧
    calculateStats
      { emptyFrame with cpu_stats := some wCs } none =
      .error "TypeError: cannot read usage of undefined" := ⟨rfl, rfl⟩

/-- Witness for C3 at the concrete frame `wFrame` (which has no
`networks`, `blkio_stats` or `pids_stats`). -/
theorem calculateStats_total_with_defaults_witness :
    ∃ r : CalcStats, calculateStats wFrame none = .ok r ∧
      (wFrame.networks = none → r.netRx = 0 ∧ r.netTx = 0) ∧
      (wFrame.blkio_stats = none → r.blockRead = 0 ∧ r.blockWrite = 0) ∧
      (wFrame.pids_stats = none → r.pids = 0) ∧
      (wMs.usage = none → r.memUsage = 0) ∧
      (wMs.limit = none → r.memLimit = 1) :=
  calculateStats_total_with_defaults wFrame none wCs wCu wMs rfl rfl rfl

/-- The state right before teardown of a single-container session whose
stream has arrived: live stream, no effect performed yet. -/
def liveStatsSession : StatsView.Session :=
  { streamRef := some { destroyed := false }, destroyCalls := 0
    showCursorCalls := 0, rendererResetCalls := 0, rawModeOffCalls := 0
    listenerRemoved := false, resolveCalls := 0, settled := false
    settleEvents := 0 }

/-- A running dashboard session with one live stream. -/
def liveDashSession : Dashboard.Session :=
  { isRunning := true, streams := [{ destroyed := false }], destroyCalls := 0
    showCursorCalls := 0, rendererResetCalls := 0, rawModeOffCalls := 0
    listenerRemoved := false }

/-- C4 counterexample: invoking `cleanup` twice on a live single-container
session performs the stream-handle destroy twice and the cursor
restoration twice (the dashboard `cleanup` also restores the cursor
twice), not exactly once each as claimed. -/
theorem cleanup_double_invocation_not_once :
    (StatsView.cleanup (StatsView.cleanup liveStatsSession)).destroyCalls = 2 ∧
    (StatsView.cleanup (StatsView.cleanup liveStatsSession)).showCursorCalls = 2 ∧
    (Dashboard.cleanup (Dashboard.cleanup liveDashSession)).showCursorCalls = 2 ∧
    (2 : Nat) ≠ 1 := by
  refine ⟨rfl, rfl, rfl, by decide⟩

/-- C4 (amended): double cancellation is safe but not effect-free: neither
`cleanup` throws (both are total state transitions), the completion
promise settles exactly once (the second `resolve()` is a no-op on a
settled promise), and a destroyed stream handle merely stays destroyed;
the dashboard `cleanup` clears its stream map so each stream's `destroy`
is issued exactly once across both invocations.  However the bodies are
unguarded: the single-container `cleanup` issues `destroy` on both calls,
and both issue the cursor-restore write twice. -/
theorem cleanup_double_invocation_safe
    (s : StatsView.Session) (h : StreamHandle)
    (hs : s.streamRef = some h) (hset : s.settled = false)
    (d : Dashboard.Session) :
    (StatsView.cleanup s).settled = true ∧
    (StatsView.cleanup (StatsView.cleanup s)).settled = true ∧
    (StatsView.cleanup (StatsView.cleanup s)).settleEvents = s.settleEvents + 1 ∧
    (StatsView.cleanup s).streamRef = some { destroyed := true } ∧
    (StatsView.cleanup (StatsView.cleanup s)).streamRef = some { destroyed := true } ∧
    (StatsView.cleanup (StatsView.cleanup s)).destroyCalls = s.destroyCalls + 2 ∧
    (StatsView.cleanup (StatsView.cleanup s)).showCursorCalls = s.showCursorCalls + 2 ∧
    (StatsView.cleanup (StatsView.cleanup s)).resolveCalls = s.resolveCalls + 2 ∧
    (Dashboard.cleanup (Dashboard.cleanup d)).destroyCalls =
      d.destroyCalls + d.streams.length ∧
    (Dashboard.cleanup (Dashboard.cleanup d)).streams = [] ∧
    (Dashboard.cleanup (Dashboard.cleanup d)).isRunning = false ∧
    (Dashboard.cleanup (Dashboard.cleanup d)).showCursorCalls =
      d.showCursorCalls + 2 := by
  refine ⟨?_, ?_, ?_, ?_, ?_, ?_, ?_, ?_, ?_, ?_, ?_, ?_⟩ <;>
    simp [StatsView.cleanup, Dashboard.cleanup, hs, hset]

/-- Witness for C4 on a live session with one stream and zeroed
counters. -/
theorem cleanup_double_invocation_safe_witness :
    (StatsView.cleanup liveStatsSession).settled = true ∧
    (StatsView.cleanup (StatsView.cleanup liveStatsSession)).settled = true ∧
    (StatsView.cleanup (StatsView.cleanup liveStatsSession)).settleEvents =
      liveStatsSession.settleEvents + 1 ∧
    (StatsView.cleanup liveStatsSession).streamRef = some { destroyed := true } ∧
    (StatsView.cleanup (StatsView.cleanup liveStatsSession)).streamRef =
      some { destroyed := true } ∧
    (StatsView.cleanup (StatsView.cleanup liveStatsSession)).destroyCalls =
      liveStatsSession.destroyCalls + 2 ∧
    (StatsView.cleanup (StatsView.cleanup liveStatsSession)).showCursorCalls =
      liveStatsSession.showCursorCalls + 2 ∧
    (StatsView.cleanup (StatsView.cleanup liveStatsSession)).resolveCalls =
      liveStatsSession.resolveCalls + 2 ∧
    (Dashboard.cleanup (Dashboard.cleanup liveDashSession)).destroyCalls =
      liveDashSession.destroyCalls + liveDashSession.streams.length ∧
    (Dashboard.cleanup (Dashboard.cleanup liveDashSession)).streams = [] ∧
    (Dashboard.cleanup (Dashboard.cleanup liveDashSession)).isRunning = false ∧
    (Dashboard.cleanup (Dashboard.cleanup liveDashSession)).showCursorCalls =
      liveDashSession.showCursorCalls + 2 :=
  cleanup_double_invocation_safe liveStatsSession { destroyed := false } rfl rfl
    liveDashSession

theorem pushHistory_eq_drop (N : Nat) (h : List α) (x : α) (hh : h.length ≤ N) :
    pushHistory N h x = (h ++ [x]).drop (h.length + 1 - N) := by
  unfold pushHistory
  by_cases hlt : N < (h ++ [x]).length
  · simp only [hlt, if_true]
    have h1 : h.length + 1 - N = 1 := by simp at hlt; omega
    rw [h1, List.drop_one]
  · simp only [hlt, if_false]
    have h0 : h.length + 1 - N = 0 := by simp at hlt; omega
    rw [h0, List.drop_zero]

theorem pushHistory_length_le (N : Nat) (h : List α) (x : α) (hh : h.length ≤ N) :
    (pushHistory N h x).length ≤ N := by
  rw [pushHistory_eq_drop N h x hh, List.length_drop]
  simp; omega

theorem foldl_pushHistory (N : Nat) (xs : List α) :
    ∀ h : List α, h.length ≤ N →
      xs.foldl (pushHistory N) h = (h ++ xs).drop (h.length + xs.length - N) := by
  induction xs with
  | nil =>
    intro h hh
    simp [Nat.sub_eq_zero_of_le hh]
  | cons x xs ih =>
    intro h hh
    rw [List.foldl_cons, ih _ (pushHistory_length_le N h x hh),
      pushHistory_eq_drop N h x hh]
    have hd : h.length + 1 - N ≤ (h ++ [x]).length := by
      simp only [List.length_append, List.length_singleton]; omega
    rw [← List.drop_append_of_le_length hd, List.drop_drop, List.length_drop]
    have harith : h.length + 1 - N + ((h ++ [x]).length - (h.length + 1 - N)
        + xs.length - N) = h.length + (x :: xs).length - N := by
      simp; omega
    rw [harith, List.append_assoc]
    simp

theorem foldl_pushHistory_last (N : Nat) (xs : List α) (hN : N < xs.length) :
    xs.foldl (pushHistory N) [] = xs.drop (xs.length - N) ∧
    (xs.foldl (pushHistory N) []).length = N := by
  have h := foldl_pushHistory N xs [] (by simp)
  simp at h
  refine ⟨h, ?_⟩
  rw [h, List.length_drop]
  omega

theorem foldl_addToHistory (samples : List CalcStats) :
    ∀ e : History,
      samples.foldl (fun o s => some (Dashboard.addToHistory o s)) (some e) =
      some { cpu := (samples.map (·.cpuPercent)).foldl
               (pushHistory Dashboard.HISTORY_SIZE) e.cpu
             mem := (samples.map (·.memPercent)).foldl
               (pushHistory Dashboard.HISTORY_SIZE) e.mem } := by
  induction samples with
  | nil => intro e; simp
  | cons s rest ih =>
    intro e
    rw [List.foldl_cons]
    have hstep : Dashboard.addToHistory (some e) s =
        { cpu := pushHistory Dashboard.HISTORY_SIZE e.cpu s.cpuPercent
          mem := pushHistory Dashboard.HISTORY_SIZE e.mem s.memPercent } := rfl
    rw [hstep, ih]
    simp

theorem foldl_pushHistory_cons_last (N : Nat) (x : α) (xs : List α)
    (h : N < xs.length + 1) :
    xs.foldl (pushHistory N) (pushHistory N [] x) =
      (x :: xs).drop (xs.length + 1 - N) ∧
    (xs.foldl (pushHistory N) (pushHistory N [] x)).length = N := by
  have hlast := foldl_pushHistory_last N (x :: xs) (by simpa using h)
  simpa using hlast

/-- C5: rolling-history capacity invariant.  Pushing `k > N` samples
through the dashboard's `addToHistory` (capacity `N = 20`, both the cpu
and mem series of an entity created lazily on first push) leaves each
series equal to the last `N` pushed values in push order, with length
exactly `N`; the single-container view's push-then-shift (capacity
`N = 30`) satisfies the same invariant. -/
theorem history_rolling_window
    (samples : List CalcStats) (hD : Dashboard.HISTORY_SIZE < samples.length)
    (cpuSamples : List JsNum) (hC : StatsView.HISTORY_SIZE < cpuSamples.length)
    (memSamples : List Rat) (hM : StatsView.HISTORY_SIZE < memSamples.length) :
    (∃ hist : History,
      samples.foldl (fun o s => some (Dashboard.addToHistory o s)) none = some hist ∧
      hist.cpu = (samples.map (·.cpuPercent)).drop
        (samples.length - Dashboard.HISTORY_SIZE) ∧
      hist.cpu.length = Dashboard.HISTORY_SIZE ∧
      hist.mem = (samples.map (·.memPercent)).drop
        (samples.length - Dashboard.HISTORY_SIZE) ∧
      hist.mem.length = Dashboard.HISTORY_SIZE) ∧
    cpuSamples.foldl (pushHistory StatsView.HISTORY_SIZE) [] =
      cpuSamples.drop (cpuSamples.length - StatsView.HISTORY_SIZE) ∧
    (cpuSamples.foldl (pushHistory StatsView.HISTORY_SIZE) []).length =
      StatsView.HISTORY_SIZE ∧
    memSamples.foldl (pushHistory StatsView.HISTORY_SIZE) [] =
      memSamples.drop (memSamples.length - StatsView.HISTORY_SIZE) ∧
    (memSamples.foldl (pushHistory StatsView.HISTORY_SIZE) []).length =
      StatsView.HISTORY_SIZE := by
  refine ⟨?_, (foldl_pushHistory_last _ _ hC).1, (foldl_pushHistory_last _ _ hC).2,
    (foldl_pushHistory_last _ _ hM).1, (foldl_pushHistory_last _ _ hM).2⟩
  match samples, hD with
  | s :: rest, hD =>
    rw [List.foldl_cons]
    have hfirst : Dashboard.addToHistory none s =
        { cpu := pushHistory Dashboard.HISTORY_SIZE [] s.cpuPercent
          mem := pushHistory Dashboard.HISTORY_SIZE [] s.memPercent } := rfl
    rw [hfirst, foldl_addToHistory]
    have hlen : Dashboard.HISTORY_SIZE < rest.length + 1 := by simpa using hD
    refine ⟨_, rfl, ?_, ?_, ?_, ?_⟩
    · simpa using (foldl_pushHistory_cons_last Dashboard.HISTORY_SIZE s.cpuPercent
        (rest.map (·.cpuPercent)) (by simpa using hlen)).1
    · simpa using (foldl_pushHistory_cons_last Dashboard.HISTORY_SIZE s.cpuPercent
        (rest.map (·.cpuPercent)) (by simpa using hlen)).2
    · simpa using (foldl_pushHistory_cons_last Dashboard.HISTORY_SIZE s.memPercent
        (rest.map (·.memPercent)) (by simpa using hlen)).1
    · simpa using (foldl_pushHistory_cons_last Dashboard.HISTORY_SIZE s.memPercent
        (rest.map (·.memPercent)) (by simpa using hlen)).2

/-- One fixed derived-metrics sample for exercising the history. -/
def histCalc : CalcStats :=
  { cpuPercent := .val 0, memUsage := 0, memLimit := 1, memPercent := 0
    netRx := 0, netTx := 0, blockRead := 0, blockWrite := 0, pids := 0
    cpuTotal := none, systemCpu := none }

/-- Witness for C5 with 21 dashboard samples and 31 stats-view samples. -/
theorem history_rolling_window_witness :
    (∃ hist : History,
      (List.replicate 21 histCalc).foldl
        (fun o s => some (Dashboard.addToHistory o s)) none = some hist ∧
      hist.cpu = ((List.replicate 21 histCalc).map (·.cpuPercent)).drop
        ((List.replicate 21 histCalc).length - Dashboard.HISTORY_SIZE) ∧
      hist.cpu.length = Dashboard.HISTORY_SIZE ∧
      hist.mem = ((List.replicate 21 histCalc).map (·.memPercent)).drop
        ((List.replicate 21 histCalc).length - Dashboard.HISTORY_SIZE) ∧
      hist.mem.length = Dashboard.HISTORY_SIZE) ∧
    (List.replicate 31 (JsNum.val 0)).foldl
      (pushHistory StatsView.HISTORY_SIZE) [] =
      (List.replicate 31 (JsNum.val 0)).drop
        ((List.replicate 31 (JsNum.val 0)).length - StatsView.HISTORY_SIZE) ∧
    ((List.replicate 31 (JsNum.val 0)).foldl
      (pushHistory StatsView.HISTORY_SIZE) []).length = StatsView.HISTORY_SIZE ∧
    (List.replicate 31 (0 : Rat)).foldl
      (pushHistory StatsView.HISTORY_SIZE) [] =
      (List.replicate 31 (0 : Rat)).drop
        ((List.replicate 31 (0 : Rat)).length - StatsView.HISTORY_SIZE) ∧
    ((List.replicate 31 (0 : Rat)).foldl
      (pushHistory StatsView.HISTORY_SIZE) []).length = StatsView.HISTORY_SIZE :=
  history_rolling_window (List.replicate 21 histCalc)
    (by simp [Dashboard.HISTORY_SIZE])
    (List.replicate 31 (JsNum.val 0)) (by simp [StatsView.HISTORY_SIZE])
    (List.replicate 31 (0 : Rat)) (by simp [StatsView.HISTORY_SIZE])

theorem padRows_of_le (rows : List String) (n : Nat) (h : n ≤ rows.length) :
    padRows rows n = rows := by
  simp [padRows, Nat.sub_eq_zero_of_le h]

theorem padRows_length_succ (rows : List String) :
    padRows rows (rows.length + 1) = rows ++ [""] := by
  simp [padRows]

theorem getD_append_length :
    ∀ (l : List String) (a d : String), (l ++ [a]).getD l.length d = a
  | [], a, d => rfl
  | x :: xs, a, d => by
    simp [getD_append_length xs a d]

theorem set_append_length :
    ∀ (l : List String) (a b : String), (l ++ [a]).set l.length b = l ++ [b]
  | [], a, b => rfl
  | x :: xs, a, b => by
    simp [set_append_length xs a b]

theorem getD_set_self :
    ∀ (l : List String) (i : Nat) (a d : String), i < l.length →
      (l.set i a).getD i d = a
  | x :: xs, 0, a, d, _ => rfl
  | x :: xs, i + 1, a, d, h => by
    simpa using getD_set_self xs i a d (by simpa using h)

theorem take_succ_set :
    ∀ (l : List String) (i : Nat) (a : String), i < l.length →
      (l.set i a).take (i + 1) = l.take i ++ [a]
  | x :: xs, 0, a, _ => rfl
  | x :: xs, i + 1, a, h => by
    simpa using take_succ_set xs i a (by simpa using h)

theorem applyOps_cons (t : Terminal) (op : TermOp) (ops : List TermOp) :
    t.applyOps (op :: ops) = (t.applyOp op).applyOps ops := rfl

theorem applyOps_nil (t : Terminal) : t.applyOps [] = t := rfl

theorem applyOp_clear_grow (rows : List String) :
    Terminal.applyOp ⟨rows, rows.length⟩ .clearLine = ⟨rows ++ [""], rows.length⟩ := by
  simp [Terminal.applyOp, padRows_length_succ, set_append_length]

theorem applyOp_write_grow (rows : List String) (l : String) :
    Terminal.applyOp ⟨rows ++ [""], rows.length⟩ (.write l) =
      ⟨rows ++ [l], rows.length⟩ := by
  have hle : rows.length + 1 ≤ (rows ++ [""]).length := by simp
  simp [Terminal.applyOp, padRows_of_le _ _ hle, getD_append_length,
    set_append_length]

theorem applyOp_clear_set (rows : List String) (r : Nat) (h : r < rows.length) :
    Terminal.applyOp ⟨rows, r⟩ .clearLine = ⟨rows.set r "", r⟩ := by
  have hle : r + 1 ≤ rows.length := h
  simp [Terminal.applyOp, padRows_of_le _ _ hle]

theorem applyOp_write_set (rows : List String) (r : Nat) (l : String)
    (h : r < rows.length) :
    Terminal.applyOp ⟨rows.set r "", r⟩ (.write l) = ⟨rows.set r l, r⟩ := by
  have hle : r + 1 ≤ (rows.set r "").length := by simpa using h
  have hg : (rows.set r "")[r]? = some "" := List.getElem?_set_eq_of_lt _ h
  have hnil : ("" : String) ++ l = l := rfl
  simp [Terminal.applyOp, padRows_of_le _ _ hle, hg, hnil, List.set_set]

theorem applyOps_linesOps_grow :
    ∀ (ls rows : List String), ls ≠ [] →
      Terminal.applyOps ⟨rows, rows.length⟩ (Renderer.linesOps ls) =
        ⟨rows ++ ls, rows.length + ls.length - 1⟩
  | [], _, h => absurd rfl h
  | [l], rows, _ => by
    rw [show Renderer.linesOps [l] = [.clearLine, .write l] from rfl,
      applyOps_cons, applyOp_clear_grow, applyOps_cons,
      applyOp_write_grow, applyOps_nil]
    simp
  | l :: x :: rest, rows, _ => by
    rw [show Renderer.linesOps (l :: x :: rest) =
        .clearLine :: .write l :: .newline :: Renderer.linesOps (x :: rest) from rfl,
      applyOps_cons, applyOp_clear_grow, applyOps_cons,
      applyOp_write_grow, applyOps_cons]
    have hnl : Terminal.applyOp ⟨rows ++ [l], rows.length⟩ .newline =
        ⟨rows ++ [l], (rows ++ [l]).length⟩ := by
      simp [Terminal.applyOp]
    rw [hnl, applyOps_linesOps_grow (x :: rest) (rows ++ [l]) (List.cons_ne_nil x rest)]
    simp
    omega

theorem applyOps_linesOps_set :
    ∀ (ls rows : List String) (r : Nat), ls ≠ [] → r + ls.length ≤ rows.length →
      Terminal.applyOps ⟨rows, r⟩ (Renderer.linesOps ls) =
        ⟨rows.take r ++ ls ++ rows.drop (r + ls.length), r + ls.length - 1⟩
  | [], _, _, h, _ => absurd rfl h
  | [l], rows, r, _, hle => by
    have hr : r < rows.length := by simp at hle; omega
    rw [show Renderer.linesOps [l] = [.clearLine, .write l] from rfl,
      applyOps_cons, applyOp_clear_set rows r hr, applyOps_cons,
      applyOp_write_set rows r l hr, applyOps_nil,
      List.set_eq_take_cons_drop l hr]
    simp
  | l :: x :: rest, rows, r, _, hle => by
    have hr : r < rows.length := by simp at hle; omega
    rw [show Renderer.linesOps (l :: x :: rest) =
        .clearLine :: .write l :: .newline :: Renderer.linesOps (x :: rest) from rfl,
      applyOps_cons, applyOp_clear_set rows r hr, applyOps_cons,
      applyOp_write_set rows r l hr, applyOps_cons]
    have hnl : Terminal.applyOp ⟨rows.set r l, r⟩ .newline =
        ⟨rows.set r l, r + 1⟩ := by
      simp [Terminal.applyOp]
    have hle2 : (r + 1) + (x :: rest).length ≤ (rows.set r l).length := by
      simp at hle ⊢; omega
    rw [hnl, applyOps_linesOps_set (x :: rest) (rows.set r l) (r + 1)
      (List.cons_ne_nil x rest) hle2,
      take_succ_set rows r l hr,
      List.drop_set_of_lt l rows (by simp; omega)]
    have harith : r + 1 + (x :: rest).length = r + (l :: x :: rest).length := by
      simp; omega
    rw [harith]
    simp

theorem applyOps_surplusOps :
    ∀ (k : Nat) (rows : List String) (r : Nat), r + 1 + k = rows.length →
      Terminal.applyOps ⟨rows, r⟩ (Renderer.surplusOps k) =
        ⟨rows.take (r + 1) ++ List.replicate k "", r + k⟩
  | 0, rows, r, h => by
    have htake : rows.take (r + 1) = rows := by
      have : r + 1 = rows.length := by omega
      rw [this, List.take_length]
    simp [Renderer.surplusOps, Terminal.applyOps, htake]
  | k + 1, rows, r, h => by
    have hsurp : Renderer.surplusOps (k + 1) =
        .newline :: .clearLine :: Renderer.surplusOps k := by
      simp [Renderer.surplusOps, List.replicate_succ]
    have hnl : Terminal.applyOp ⟨rows, r⟩ .newline = ⟨rows, r + 1⟩ := by
      simp [Terminal.applyOp]
    rw [hsurp, applyOps_cons, hnl, applyOps_cons,
      applyOp_clear_set rows (r + 1) (by omega),
      applyOps_surplusOps k (rows.set (r + 1) "") (r + 1) (by simp; omega),
      take_succ_set rows (r + 1) "" (by omega)]
    have harith : r + 1 + k = r + (k + 1) := by omega
    simp [List.replicate_succ, harith]

theorem applyOps_append (t : Terminal) (xs ys : List TermOp) :
    t.applyOps (xs ++ ys) = (t.applyOps xs).applyOps ys :=
  List.foldl_append _ _ xs ys

theorem count_clear_linesOps :
    ∀ ls : List String, (Renderer.linesOps ls).count TermOp.clearLine = ls.length
  | [] => rfl
  | [_] => rfl
  | l :: x :: rest => by
    rw [show Renderer.linesOps (l :: x :: rest) =
        .clearLine :: .write l :: .newline :: Renderer.linesOps (x :: rest) from rfl]
    simp [List.count_cons, count_clear_linesOps (x :: rest)]

theorem count_clear_surplusOps :
    ∀ k : Nat, (Renderer.surplusOps k).count TermOp.clearLine = k
  | 0 => rfl
  | k + 1 => by
    have hsurp : Renderer.surplusOps (k + 1) =
        .newline :: .clearLine :: Renderer.surplusOps k := by
      simp [Renderer.surplusOps, List.replicate_succ]
    rw [hsurp]
    simp [List.count_cons, count_clear_surplusOps k]

/-- C6: rendering an `m`-line buffer right after an `n`-line buffer with
`n > m` emits one clear command per surplus row (`m` content clears plus
`n - m` surplus clears), leaves the terminal with exactly the `m` new
content lines followed by `n - m` blanked rows (no residual glyphs), and
repositions the cursor so the next render starts at the correct row: the
cursor rests on row `m` with `lastLineCount = m`, so the next render's
cursor-up lands on row 0, the start of the painted region. -/
theorem render_shrink_clears_surplus (a b : String)
    (hm : 0 < (splitLines b).length)
    (hmn : (splitLines b).length < (splitLines a).length) :
    ((Renderer.render (Renderer.render Renderer.initial a).1 b).2.count
        TermOp.clearLine =
      (splitLines b).length +
        ((splitLines a).length - (splitLines b).length)) ∧
    ((Terminal.empty.applyOps (Renderer.render Renderer.initial a).2).applyOps
        (Renderer.render (Renderer.render Renderer.initial a).1 b).2).rows =
      splitLines b ++
        List.replicate ((splitLines a).length - (splitLines b).length) "" ∧
    ((Terminal.empty.applyOps (Renderer.render Renderer.initial a).2).applyOps
        (Renderer.render (Renderer.render Renderer.initial a).1 b).2).cur =
      (splitLines b).length ∧
    (Renderer.render (Renderer.render Renderer.initial a).1 b).1.lastLineCount =
      (splitLines b).length ∧
    (((Terminal.empty.applyOps (Renderer.render Renderer.initial a).2).applyOps
        (Renderer.render (Renderer.render Renderer.initial a).1 b).2).applyOp
      (TermOp.moveUp
        (Renderer.render (Renderer.render Renderer.initial a).1 b).1.lastLineCount)).cur
      = 0 := by
  have hla : splitLines a ≠ [] := by
    apply List.ne_nil_of_length_pos; omega
  have hlb : splitLines b ≠ [] := List.ne_nil_of_length_pos hm
  have h1 : Renderer.render Renderer.initial a =
      (⟨(splitLines a).length, false⟩,
        Renderer.linesOps (splitLines a) ++ [TermOp.newline]) := by
    simp [Renderer.render, Renderer.initial]
  have ht1 : Terminal.empty.applyOps
      (Renderer.linesOps (splitLines a) ++ [TermOp.newline]) =
      ⟨splitLines a, (splitLines a).length⟩ := by
    rw [applyOps_append,
      show Terminal.empty = ⟨[], List.length ([] : List String)⟩ from rfl,
      applyOps_linesOps_grow (splitLines a) [] hla]
    show Terminal.applyOp _ .newline = _
    simp [Terminal.applyOp]
    omega
  have h2 : Renderer.render ⟨(splitLines a).length, false⟩ b =
      (⟨(splitLines b).length, false⟩,
        [TermOp.moveUp (splitLines a).length] ++
          Renderer.linesOps (splitLines b) ++
          (Renderer.surplusOps
              ((splitLines a).length - (splitLines b).length) ++
            [TermOp.moveUp
              ((splitLines a).length - (splitLines b).length)]) ++
          [TermOp.newline]) := by
    have hna : 0 < (splitLines a).length := by omega
    simp [Renderer.render, hmn, hna]
  rw [h1, h2]
  refine ⟨?_, ?_⟩
  · simp [List.count_append, count_clear_linesOps, count_clear_surplusOps]
  · have htrace :
        (Terminal.applyOps ⟨splitLines a, (splitLines a).length⟩
          ([TermOp.moveUp (splitLines a).length] ++
            Renderer.linesOps (splitLines b) ++
            (Renderer.surplusOps
                ((splitLines a).length - (splitLines b).length) ++
              [TermOp.moveUp
                ((splitLines a).length - (splitLines b).length)]) ++
            [TermOp.newline])) =
        ⟨splitLines b ++
          List.replicate ((splitLines a).length - (splitLines b).length) "",
          (splitLines b).length⟩ := by
      rw [applyOps_append, applyOps_append, applyOps_append, applyOps_append]
      have hmv : Terminal.applyOps ⟨splitLines a, (splitLines a).length⟩
          [TermOp.moveUp (splitLines a).length] = ⟨splitLines a, 0⟩ := by
        simp [Terminal.applyOps, Terminal.applyOp]
      rw [hmv, show (⟨splitLines a, 0⟩ : Terminal) =
          ⟨splitLines a, (0 : Nat)⟩ from rfl]
      rw [applyOps_linesOps_set (splitLines b) (splitLines a) 0 hlb
        (by omega)]
      simp only [List.take_zero, List.nil_append, Nat.zero_add]
      rw [applyOps_surplusOps
        ((splitLines a).length - (splitLines b).length)
        (splitLines b ++ (splitLines a).drop (splitLines b).length)
        ((splitLines b).length - 1) (by simp; omega)]
      have htake : (splitLines b ++
          (splitLines a).drop (splitLines b).length).take
            ((splitLines b).length - 1 + 1) = splitLines b := by
        have : (splitLines b).length - 1 + 1 = (splitLines b).length := by
          omega
        rw [this]
        exact List.take_left _ _
      rw [htake]
      have hmv2 : ∀ rows : List String,
          Terminal.applyOps ⟨rows,
            (splitLines b).length - 1 +
              ((splitLines a).length - (splitLines b).length)⟩
            [TermOp.moveUp
              ((splitLines a).length - (splitLines b).length),
             TermOp.newline] =
          ⟨rows, (splitLines b).length⟩ := by
        intro rows
        simp [Terminal.applyOps, Terminal.applyOp]
        omega
      exact hmv2 _
    rw [ht1, htrace]
    refine ⟨rfl, rfl, rfl, ?_⟩
    simp [Terminal.applyOp]

/-- Witness for C6 at the claim's instance: a 5-line buffer followed by a
2-line buffer (3 surplus rows cleared). -/
theorem render_shrink_clears_surplus_witness :
    ((Renderer.render (Renderer.render Renderer.initial "a\nb\nc\nd\ne").1
        "x\ny").2.count TermOp.clearLine =
      (splitLines "x\ny").length +
        ((splitLines "a\nb\nc\nd\ne").length - (splitLines "x\ny").length)) ∧
    ((Terminal.empty.applyOps
        (Renderer.render Renderer.initial "a\nb\nc\nd\ne").2).applyOps
        (Renderer.render (Renderer.render Renderer.initial "a\nb\nc\nd\ne").1
          "x\ny").2).rows =
      splitLines "x\ny" ++
        List.replicate
          ((splitLines "a\nb\nc\nd\ne").length - (splitLines "x\ny").length) "" ∧
    ((Terminal.empty.applyOps
        (Renderer.render Renderer.initial "a\nb\nc\nd\ne").2).applyOps
        (Renderer.render (Renderer.render Renderer.initial "a\nb\nc\nd\ne").1
          "x\ny").2).cur =
      (splitLines "x\ny").length ∧
    (Renderer.render (Renderer.render Renderer.initial "a\nb\nc\nd\ne").1
        "x\ny").1.lastLineCount = (splitLines "x\ny").length ∧
    (((Terminal.empty.applyOps
        (Renderer.render Renderer.initial "a\nb\nc\nd\ne").2).applyOps
        (Renderer.render (Renderer.render Renderer.initial "a\nb\nc\nd\ne").1
          "x\ny").2).applyOp
      (TermOp.moveUp
        (Renderer.render (Renderer.render Renderer.initial "a\nb\nc\nd\ne").1
          "x\ny").1.lastLineCount)).cur = 0 :=
  render_shrink_clears_surplus "a\nb\nc\nd\ne" "x\ny" (by decide) (by decide)

theorem listMin_le_self : ∀ (xs : List Rat) (x : Rat), listMin x xs ≤ x
  | [], _ => le_refl _
  | y :: ys, x => by
    have h := listMin_le_self ys (min x y)
    calc listMin x (y :: ys) = listMin (min x y) ys := rfl
      _ ≤ min x y := h
      _ ≤ x := min_le_left _ _

theorem listMin_le_mem :
    ∀ (xs : List Rat) (x v : Rat), v ∈ x :: xs → listMin x xs ≤ v
  | [], x, v, hv => by
    simp at hv
    exact hv ▸ le_refl _
  | y :: ys, x, v, hv => by
    rcases List.mem_cons.mp hv with h | h
    · exact h ▸ listMin_le_self (y :: ys) x
    · rcases List.mem_cons.mp h with h2 | h2
      · calc listMin x (y :: ys) = listMin (min x y) ys := rfl
          _ ≤ min x y := listMin_le_self ys _
          _ ≤ y := min_le_right _ _
          _ = v := h2.symm
      · calc listMin x (y :: ys) = listMin (min x y) ys := rfl
          _ ≤ v := listMin_le_mem ys (min x y) v (List.mem_cons_of_mem _ h2)

theorem le_listMax_self : ∀ (xs : List Rat) (x : Rat), x ≤ listMax x xs
  | [], _ => le_refl _
  | y :: ys, x => by
    have h := le_listMax_self ys (max x y)
    calc x ≤ max x y := le_max_left _ _
      _ ≤ listMax (max x y) ys := h
      _ = listMax x (y :: ys) := rfl

theorem sparkline_range_pos (x : Rat) (xs : List Rat) :
    0 < (if listMax x xs - listMin x xs = 0 then 1
         else listMax x xs - listMin x xs) := by
  have h1 : listMin x xs ≤ x := listMin_le_self xs x
  have h2 : x ≤ listMax x xs := le_listMax_self xs x
  by_cases h : listMax x xs - listMin x xs = 0
  · simp [h]
  · simp [h]
    cases lt_or_eq_of_le (le_trans h1 h2) with
    | inl hlt => linarith
    | inr heq => exact absurd (by rw [heq]; ring) h

theorem sparklineGlyph_length (dataMin range v : Rat)
    (hv : dataMin ≤ v) (hr : 0 < range) :
    (sparklineGlyph dataMin range v).length = 1 := by
  have hnn : (0 : Rat) ≤ (v - dataMin) / range :=
    div_nonneg (by linarith) (le_of_lt hr)
  have hfl : (0 : Int) ≤ ⌊(v - dataMin) / range * 8⌋ :=
    Int.floor_nonneg.mpr (by positivity)
  have hidx : ¬ (min 7 ⌊(v - dataMin) / range * 8⌋ < 0) := by
    simp only [not_lt]
    exact le_min (by norm_num) hfl
  have hle : (min 7 ⌊(v - dataMin) / range * 8⌋).toNat ≤ 7 := by
    omega
  unfold sparklineGlyph
  simp only [hidx, if_false]
  interval_cases h : (min 7 ⌊(v - dataMin) / range * 8⌋).toNat <;> decide

theorem join_units_length :
    ∀ l : List String, (∀ s ∈ l, s.length = 1) →
      (String.join l).length = l.length
  | [], _ => rfl
  | s :: t, h => by
    have hs : (String.join (s :: t)).data =
        s.data ++ (String.join t).data := by
      simp [String.data_join]
    have hlen : (String.join (s :: t)).length =
        s.length + (String.join t).length := by
      show (String.join (s :: t)).data.length = _
      rw [hs, List.length_append]
      rfl
    rw [hlen, h s (by simp), join_units_length t (fun u hu => h u (by simp [hu]))]
    simp [Nat.add_comm]

theorem jsSliceNeg_length_le (l : List α) (w : Nat) (hw : w ≠ 0) :
    (jsSliceNeg l w).length ≤ w ∧ (jsSliceNeg l w).length = min l.length w := by
  simp [jsSliceNeg, hw]
  omega

theorem sparklinePoints_length (d : List Rat) (w : Nat) (m : Rat) (hw : w ≠ 0) :
    (sparklinePoints d w m).length = w := by
  have h := jsSliceNeg_length_le d w hw
  simp [sparklinePoints]
  omega

theorem sparklinePoints_mem (d : List Rat) (w : Nat) (m : Rat) :
    ∀ v ∈ sparklinePoints d w m, v = m ∨ v ∈ d := by
  intro v hv
  rcases List.mem_append.mp hv with h | h
  · exact Or.inl (List.eq_of_mem_replicate h)
  · right
    simp only [jsSliceNeg] at h
    split at h
    · exact h
    · exact List.drop_subset _ d h

/-- C7 (amended): for every width `w ≥ 1` with the default min/max
options: an absent or empty series renders as a flat dashed line of
exactly `w` glyphs; a nonempty series renders exactly `w` glyphs; a series
shorter than `w` is left-padded with the series minimum; a series of at
least `w` samples contributes exactly its last `w` samples.  The original
claim quantifies over every requested width but fails at `w = 0`:
`slice(-0)` is the whole array, so a nonempty series yields its full
length in glyphs instead of 0 (see the counterexample). -/
theorem sparkline_exact_width (w : Nat) (hw : 1 ≤ w) (x : Rat) (xs : List Rat) :
    sparkline none w none none = String.join (List.replicate w "─") ∧
    (sparkline none w none none).length = w ∧
    (sparkline (some []) w none none).length = w ∧
    (sparkline (some (x :: xs)) w none none).length = w ∧
    ((x :: xs).length ≤ w →
      sparklinePoints (x :: xs) w (listMin x xs) =
        List.replicate (w - (x :: xs).length) (listMin x xs) ++ (x :: xs)) ∧
    (w ≤ (x :: xs).length →
      sparklinePoints (x :: xs) w (listMin x xs) =
        (x :: xs).drop ((x :: xs).length - w)) := by
  have hw0 : w ≠ 0 := by omega
  have hdash : (String.join (List.replicate w "─")).length = w := by
    rw [join_units_length _ (fun s hs => by
      rw [List.eq_of_mem_replicate hs]; decide)]
    simp
  refine ⟨rfl, hdash, hdash, ?_, ?_, ?_⟩
  · show (String.join ((sparklinePoints (x :: xs) w (listMin x xs)).map
      (sparklineGlyph (listMin x xs)
        (if listMax x xs - listMin x xs = 0 then 1
         else listMax x xs - listMin x xs)))).length = w
    rw [join_units_length _ (fun s hs => by
      rcases List.mem_map.mp hs with ⟨v, hv, hglyph⟩
      rcases sparklinePoints_mem _ _ _ v hv with h | h
      · exact hglyph ▸ sparklineGlyph_length _ _ _ (le_of_eq h.symm)
          (sparkline_range_pos x xs)
      · exact hglyph ▸ sparklineGlyph_length _ _ _ (listMin_le_mem xs x v h)
          (sparkline_range_pos x xs))]
    rw [List.length_map]
    exact sparklinePoints_length _ _ _ hw0
  · intro hle
    have hslice : jsSliceNeg (x :: xs) w = x :: xs := by
      have h0 : xs.length + 1 - w = 0 := by simp at hle; omega
      simp [jsSliceNeg, hw0, h0]
    unfold sparklinePoints
    rw [hslice]
  · intro hge
    have hge2 : w ≤ xs.length + 1 := by simpa using hge
    unfold sparklinePoints
    have hs : jsSliceNeg (x :: xs) w =
        (x :: xs).drop ((x :: xs).length - w) := by
      simp [jsSliceNeg, hw0]
    rw [hs]
    have hlen0 : w - ((x :: xs).drop ((x :: xs).length - w)).length = 0 := by
      simp
      omega
    simp [hlen0]
    omega

/-- C7 counterexample: at requested width 0 a one-sample series renders 1
glyph, not 0. -/
theorem sparkline_width_zero_extra_glyph :
    (sparkline (some [5]) 0 none none).length = 1 ∧ (1 : Nat) ≠ 0 := by
  refine ⟨?_, by decide⟩
  have h5 : (5 : Rat) - 5 = 0 := by norm_num
  have hglyph : sparklineGlyph 5 1 5 = "▁" := by
    simp [sparklineGlyph, h5]
    rfl
  show (String.join ((sparklinePoints [5] 0 (listMin 5 [])).map
    (sparklineGlyph (listMin 5 [])
      (if listMax 5 [] - listMin 5 [] = 0 then 1
       else listMax 5 [] - listMin 5 [])))).length = 1
  have hmin : listMin 5 [] = 5 := rfl
  have hmax : listMax 5 [] = 5 := rfl
  rw [hmin, hmax, if_pos h5]
  have hpts : sparklinePoints [5] 0 5 = [5] := rfl
  rw [hpts]
  simp [hglyph]
  rfl

/-- Witness for C7 at width 3 and the two-sample series. -/
theorem sparkline_exact_width_witness :
    sparkline none 3 none none = String.join (List.replicate 3 "─") ∧
    (sparkline none 3 none none).length = 3 ∧
    (sparkline (some []) 3 none none).length = 3 ∧
    (sparkline (some ((1 : Rat) :: [2])) 3 none none).length = 3 ∧
    (((1 : Rat) :: [2]).length ≤ 3 →
      sparklinePoints ((1 : Rat) :: [2]) 3 (listMin 1 [2]) =
        List.replicate (3 - ((1 : Rat) :: [2]).length) (listMin 1 [2]) ++
          ((1 : Rat) :: [2])) ∧
    (3 ≤ ((1 : Rat) :: [2]).length →
      sparklinePoints ((1 : Rat) :: [2]) 3 (listMin 1 [2]) =
        ((1 : Rat) :: [2]).drop (((1 : Rat) :: [2]).length - 3)) :=
  sparkline_exact_width 3 (by norm_num) 1 [2]

theorem cbLoop_idx_le : ∀ (fuel : Nat) (v : Rat) (idx : Nat), idx ≤ 4 →
    (cbLoop v idx fuel).2 ≤ 4
  | 0, _, _, h => h
  | fuel + 1, v, idx, h => by
    rw [cbLoop]
    split
    · next hcond =>
      exact cbLoop_idx_le fuel (v / 1024) (idx + 1) (by omega)
    · exact h

theorem jsIndexStr_mem_of_lt (l : List String) (i : Nat) (h : i < l.length) :
    jsIndexStr l i ∈ l := by
  have hu : l[i]? = some l[i] := List.getElem?_eq_getElem h
  simp [jsIndexStr, hu]

theorem toFixedParseFloatStr_one : toFixedParseFloatStr 1 2 = "1" := by
  have hround : jsRound ((10 : Rat) ^ 2) = 100 := by
    simp [jsRound]
    norm_num
  simp [toFixedParseFloatStr, hround]
  rfl

/-- C8 (amended): `formatBytes(0)` is `"0 B"` without raising (for any
decimals argument and any log outcome); `formatBytes(1024)` is `"1 KB"`
(the quotient of identical doubles is exactly 1, and the default
precision's trailing zeros are stripped by `parseFloat`); for every
positive byte count below `1024^5 * (1 - 2^-40)` — that is, everywhere
except the floating-point fuzz at the end of the TB range — every
faithfully-rounded evaluation of the double log quotient selects a unit
among B/KB/MB/GB/TB; and `coloredBytes` caps its division loop at TB, so
its unit is always one of the five.  But `formatBytes` has no such cap:
at `1024^5` bytes (and already just below it, where the standard libm's
log quotient is exactly 5.0) the index passes the end of the unit table
and the unit renders as `"undefined"` (see the counterexample), so the
claim's universal unit bound is false. -/
theorem formatBytes_unit_selection
    (d : Int) (b i j : Nat) (hb : 0 < b) (hi : jsLogIdx b i)
    (hlt : (b : Rat) < (1024 : Rat) ^ 5 * (1 - logUlpErr))
    (hj : jsLogIdx 1024 j) (r : Rat) :
    formatBytes 0 d i = "0 B" ∧
    formatBytes 1024 2 j = "1 KB" ∧
    (∃ v u : String, formatBytes b 2 i = v ++ " " ++ u ∧ u ∈ sizes) ∧
    (∃ v u : String, coloredBytes r = v ++ " " ++ u ∧ u ∈ sizes) := by
  refine ⟨rfl, ?_, ?_, ?_⟩
  · have hj1 : j = 1 := hj.2.2 rfl
    subst hj1
    have hval : ((1024 : Nat) : Rat) / (1024 : Rat) ^ 1 = 1 := by norm_num
    simp [formatBytes, hval, toFixedParseFloatStr_one]
    rfl
  · have hile : i ≤ 4 := by
      have heps : (0 : Rat) < 1 - logUlpErr := by norm_num [logUlpErr]
      have hpow : (1024 : Rat) ^ i * (1 - logUlpErr) <
          (1024 : Rat) ^ 5 * (1 - logUlpErr) := lt_of_le_of_lt hi.1 hlt
      have hlt5 : (1024 : Rat) ^ i < (1024 : Rat) ^ 5 :=
        lt_of_mul_lt_mul_right hpow (le_of_lt heps)
      have := (pow_lt_pow_iff_right₀ (a := (1024 : Rat)) (by norm_num)).mp hlt5
      omega
    refine ⟨toFixedParseFloatStr ((b : Rat) / (1024 : Rat) ^ i) 2,
      jsIndexStr sizes i, ?_, ?_⟩
    · simp [formatBytes, Nat.pos_iff_ne_zero.mp hb]
    · exact jsIndexStr_mem_of_lt sizes _ (by simp [sizes]; omega)
  · have hidx : (cbLoop r 0 4).2 ≤ 4 := cbLoop_idx_le 4 r 0 (by norm_num)
    refine ⟨toFixedStr (cbLoop r 0 4).1 1, jsIndexStr sizes (cbLoop r 0 4).2,
      rfl, ?_⟩
    exact jsIndexStr_mem_of_lt sizes _ (by simp [sizes]; omega)

/-- C8 counterexample: at `1024^5` bytes the double log quotient of the
standard libm is exactly 5.0 (a value `jsLogIdx` admits), so the program
reads `sizes[5]` — past the unit table — and returns `"1 undefined"`. -/
theorem formatBytes_petabyte_undefined_unit :
    jsLogIdx (1024 ^ 5) 5 ∧
    formatBytes (1024 ^ 5) 2 5 = "1 undefined" ∧
    "undefined" ∉ sizes := by
  refine ⟨⟨by norm_num [logUlpErr], by norm_num [logUlpErr], by norm_num⟩,
    ?_, by decide⟩
  have hne : (1024 ^ 5 : Nat) ≠ 0 := by positivity
  have hval : ((1125899906842624 : Rat)) / (1024 : Rat) ^ 5 = 1 := by norm_num
  simp [formatBytes, hne, hval, toFixedParseFloatStr_one]
  rfl

/-- Witness for C8 at `bytes = 1024` with its only admissible index 1, and
`coloredBytes 5`. -/
theorem formatBytes_unit_selection_witness :
    formatBytes 0 (-1) 1 = "0 B" ∧
    formatBytes 1024 2 1 = "1 KB" ∧
    (∃ v u : String, formatBytes 1024 2 1 = v ++ " " ++ u ∧ u ∈ sizes) ∧
    (∃ v u : String, coloredBytes 5 = v ++ " " ++ u ∧ u ∈ sizes) :=
  formatBytes_unit_selection (-1) 1024 1 1 (by norm_num)
    ⟨by norm_num [logUlpErr], by norm_num [logUlpErr], fun _ => rfl⟩
    (by norm_num [logUlpErr])
    ⟨by norm_num [logUlpErr], by norm_num [logUlpErr], fun _ => rfl⟩ 5

theorem safePercent_mem (p : Rat) : 0 ≤ safePercent p ∧ safePercent p ≤ 100 :=
  ⟨le_min (by norm_num) (le_max_left 0 p), min_le_left _ _⟩

theorem pbFilled_bounds (p : Rat) (w : Nat) :
    0 ≤ pbFilled p w ∧ pbFilled p w ≤ (w : Int) := by
  obtain ⟨h0, h100⟩ := safePercent_mem p
  have hx0 : (0 : Rat) ≤ safePercent p / 100 * w := by positivity
  have hx1 : safePercent p / 100 * w ≤ (w : Rat) := by
    have hdiv : safePercent p / 100 ≤ 1 := by
      rw [div_le_one (by norm_num)]
      exact h100
    calc safePercent p / 100 * w ≤ 1 * w :=
          mul_le_mul_of_nonneg_right hdiv (by positivity)
      _ = (w : Rat) := one_mul _
  constructor
  · exact Int.floor_nonneg.mpr (by linarith)
  · have hlt : pbFilled p w < (w : Int) + 1 := by
      rw [pbFilled, jsRound, Int.floor_lt]
      push_cast
      linarith
    omega

/-- C9: `progressBar` clamps the percent into `[0, 100]` before rounding,
so for every percent (including values below 0 or above 100) and every
width the filled and empty repeat counts are nonnegative and sum to
`width`, the produced bar consists of exactly `width` block glyphs, and
the repeat calls can never raise a `RangeError`. -/
theorem progressBar_glyph_width (p : Rat) (w : Nat) (sp : Bool) :
    0 ≤ pbFilled p w ∧ 0 ≤ pbEmpty p w ∧
    pbFilled p w + pbEmpty p w = (w : Int) ∧
    (∃ s : String, progressBar p w false = .ok s ∧ s.length = w) ∧
    (∃ s : String, progressBar p w sp = .ok s) := by
  obtain ⟨hf0, hfw⟩ := pbFilled_bounds p w
  have he0 : 0 ≤ pbEmpty p w := by
    rw [pbEmpty]
    omega
  have hsum : pbFilled p w + pbEmpty p w = (w : Int) := by
    rw [pbEmpty]
    ring
  have hrep1 : jsRepeat "█" (pbFilled p w) =
      .ok (String.join (List.replicate (pbFilled p w).toNat "█")) := by
    simp [jsRepeat, not_lt.mpr hf0]
  have hrep2 : jsRepeat "░" (pbEmpty p w) =
      .ok (String.join (List.replicate (pbEmpty p w).toNat "░")) := by
    simp [jsRepeat, not_lt.mpr he0]
  have hlen1 : (String.join (List.replicate (pbFilled p w).toNat "█")).length =
      (pbFilled p w).toNat := by
    rw [join_units_length _ (fun s hs => by
      rw [List.eq_of_mem_replicate hs]; decide)]
    simp
  have hlen2 : (String.join (List.replicate (pbEmpty p w).toNat "░")).length =
      (pbEmpty p w).toNat := by
    rw [join_units_length _ (fun s hs => by
      rw [List.eq_of_mem_replicate hs]; decide)]
    simp
  have hbar : progressBar p w false =
      .ok (String.join (List.replicate (pbFilled p w).toNat "█") ++
        String.join (List.replicate (pbEmpty p w).toNat "░")) := by
    simp [progressBar, hrep1, hrep2]
    rfl
  have hbarlen : (String.join (List.replicate (pbFilled p w).toNat "█") ++
      String.join (List.replicate (pbEmpty p w).toNat "░")).length = w := by
    rw [String.length_append, hlen1, hlen2]
    omega
  refine ⟨hf0, he0, hsum, ⟨_, hbar, hbarlen⟩, ?_⟩
  cases sp
  · exact ⟨_, hbar⟩
  · have hbar2 : progressBar p w true =
        .ok (String.join (List.replicate (pbFilled p w).toNat "█") ++
          String.join (List.replicate (pbEmpty p w).toNat "░") ++ " " ++
          padStart (toFixedStr (safePercent p) 1) 5 ++ "%") := by
      simp [progressBar, hrep1, hrep2]
      rfl
    exact ⟨_, hbar2⟩

/-- C10: `loadConfig` is total — a missing file, an unreadable file, and
invalid JSON all fall back to the default configuration — and a parsed
object is merged over the defaults, so the result always carries all four
recognized keys (`refreshInterval`, `logTail`, `showAllContainers`,
`theme`) with defaults filled in for any key absent from the stored
file. -/
theorem loadConfig_total_defaults (c : StoredConfig) :
    loadConfig .missing = DEFAULT_CONFIG ∧
    loadConfig .unreadable = DEFAULT_CONFIG ∧
    loadConfig .invalidJson = DEFAULT_CONFIG ∧
    loadConfig (.parsed c) =
      { refreshInterval := c.refreshInterval.getD 2000
        logTail := c.logTail.getD 100
        showAllContainers := c.showAllContainers.getD true
        theme := c.theme.getD "default" } :=
  ⟨rfl, rfl, rfl, rfl⟩
